import Mathlib

/-!
# Verification of the metal-component Component lifecycle

The repository's `src/Component.js` implementation is not present; only its
test suite (`src/test/Component.js`) and a barrel export file are. The
definitions below are therefore a shallow embedding of the Component
lifecycle state machine, modelled from the specification and pinned by the
observable behaviour asserted in the test suite. Machine state is explicit:
a `CompState` record for a single component instance and a `World` record
for the process-wide object heap plus the `ComponentCollector` directory.
-/

/-- Errors thrown synchronously by lifecycle calls.
`alreadyRendered` corresponds to the `AlreadyRenderedError` thrown when
`render()`/`decorate()` is called on a component that already left the
`UNRENDERED` state. -/
inductive MetalError where
  | alreadyRendered
  deriving Repr, DecidableEq

/-- An event-map entry value, as accepted by the `events` attribute:
a function value, a method-name string, a cross-component `"otherId:name"`
string, or a `{fn, selector}` delegation descriptor (with `fn` given as a
method name). Modelled from the spec: §4.4 resolution rules. -/
inductive HandlerDesc where
  | fnVal (token : Nat)
  | methodName (name : String)
  | otherComp (cid : String) (name : String)
  | delegated (fnName : String) (selector : String)
  deriving Repr, DecidableEq

/-- A successfully resolved event handler, as recorded in the component's
listener ledger after wiring an `events` entry. -/
inductive Resolved where
  | fnVal (token : Nat)
  | selfMethod (name : String)
  | otherMethod (cid : String) (name : String)
  | delegated (fnName : String) (selector : String)
  deriving Repr, DecidableEq

/-- Modelled from the spec: the state of one Component instance.
Attribute values are integers (the tests only exercise scalar values);
`attrs` lists the declared attributes with their current values, in
declaration order (merged across the supertype chain, base first);
`syncNames` lists the attributes for which a method named
`sync<Capitalized name>` exists on the component; `staticClasses` is the
`ELEMENT_CLASSES` chain (subtype contributions first, the base marker class
`"component"` contributed last by the base class). Hook invocations and
sync-method invocations are recorded in counters and logs so that
"fires exactly once" properties are statable. -/
structure CompState where
  id : String
  methods : List String
  attrs : List (String × Int)
  syncNames : List String
  staticClasses : List (List String)
  elementClasses : List String
  classList : List String
  eventsMap : List (String × HandlerDesc)
  listeners : List (String × Resolved)
  pending : List String
  syncLog : List (String × Int)
  attrsChangedCount : Nat
  renderEvents : List Bool
  wasRendered : Bool
  wasDecorated : Bool
  inDocument : Bool
  disposed : Bool
  disposeCount : Nat
  attachedCount : Nat
  detachedCount : Nat
  subComponents : List String
  elementSet : Bool
  deriving Repr, DecidableEq

/-- A component with every log empty and every flag clear, before any
lifecycle call. Concrete instances override the relevant fields. -/
def emptyComp : CompState :=
  { id := ""
    methods := []
    attrs := []
    syncNames := []
    staticClasses := [["component"]]
    elementClasses := []
    classList := []
    eventsMap := []
    listeners := []
    pending := []
    syncLog := []
    attrsChangedCount := 0
    renderEvents := []
    wasRendered := false
    wasDecorated := false
    inDocument := false
    disposed := false
    disposeCount := 0
    attachedCount := 0
    detachedCount := 0
    subComponents := []
    elementSet := false }

/-- The names of a list of attribute definitions, in order. -/
def attrNames (l : List (String × Int)) : List String := l.map Prod.fst

/-- Modelled from the spec: append class tokens, keeping only the first
occurrence of each (the DOM class list holds each token once). -/
def dedupAppend (acc : List String) (xs : List String) : List String :=
  xs.foldl (fun a x => if x ∈ a then a else a ++ [x]) acc

/-- Merged static default classes for a component's type chain
(`ELEMENT_CLASSES` hints, subtype first, base marker class last). -/
def mergeElementClasses (chain : List (List String)) : List String :=
  chain.foldl dedupAppend []

/-- Modelled from the spec: the full class list applied to `element` —
the merged static default classes followed by the current value of the
`elementClasses` attribute. -/
def computeClassList (c : CompState) : List String :=
  dedupAppend (mergeElementClasses c.staticClasses) c.elementClasses

/-- The class-list order asserted by the spec sentence for claim C5, taken
verbatim from its words: "base marker class, then static default classes,
then the current `elementClasses` value, in that order". Kept separate so
it can be compared against the behaviour pinned by the test suite. -/
def specClassOrder (base : String) (defaults value : List String) : List String :=
  base :: (defaults ++ value)

/-- The synchronous first-pass attribute synchronization performed by the
first render/decorate: every declared attribute that has a sync method is
delivered, with its current value, in declaration order. -/
def syncPass (c : CompState) : List (String × Int) :=
  c.attrs.filter (fun a => decide (a.1 ∈ c.syncNames))

/-- Modelled from the spec: the shared body of `render` and `decorate`.
Drives the renderer (the element exists afterwards), applies classes,
performs the synchronous sync pass, puts the element in the document,
marks the component rendered and attached, emits the `render` event with
the `decorating` flag, and invokes the `attached` hook. -/
def renderInternal (c : CompState) (decorating : Bool) : CompState :=
  { c with
    wasRendered := true
    wasDecorated := c.wasDecorated || decorating
    elementSet := true
    classList := computeClassList c
    syncLog := c.syncLog ++ syncPass c
    renderEvents := c.renderEvents ++ [decorating]
    inDocument := true
    attachedCount := c.attachedCount + 1 }

/-- Modelled from the spec: `render()` is valid only from `UNRENDERED` and
fails with `AlreadyRenderedError` otherwise. -/
def render (c : CompState) : Except MetalError CompState :=
  if c.wasRendered then .error .alreadyRendered
  else .ok (renderInternal c false)

/-- Modelled from the spec: `decorate()` has the identical contract, with
the `render` event carrying `decorating = true`. -/
def decorate (c : CompState) : Except MetalError CompState :=
  if c.wasRendered then .error .alreadyRendered
  else .ok (renderInternal c true)

/-- Modelled from the spec: `attach()` — if not already attached, insert
the element into the document, set ATTACHED and invoke the `attached`
hook; a no-op while already attached. -/
def attach (c : CompState) : CompState :=
  if c.inDocument then c
  else { c with inDocument := true, attachedCount := c.attachedCount + 1 }

/-- Modelled from the spec: `detach()` — remove the element from the
document if attached and invoke the `detached` hook; a no-op otherwise. -/
def detach (c : CompState) : CompState :=
  if c.inDocument then
    { c with inDocument := false, detachedCount := c.detachedCount + 1 }
  else c

/-- Modelled from the spec: lifecycle methods end in `return this`; the
returned reference is surfaced through the component's identity (`id`),
which no lifecycle method changes. -/
def renderSelf (c : CompState) : Except MetalError (CompState × String) :=
  (render c).map (fun c2 => (c2, c2.id))

/-- Modelled from the spec: `decorate` returns `this` as well. -/
def decorateSelf (c : CompState) : Except MetalError (CompState × String) :=
  (decorate c).map (fun c2 => (c2, c2.id))

/-- Modelled from the spec: `attach` returns `this`. -/
def attachSelf (c : CompState) : CompState × String :=
  ((attach c), (attach c).id)

/-- Modelled from the spec: `detach` returns `this`. -/
def detachSelf (c : CompState) : CompState × String :=
  ((detach c), (detach c).id)

/-- Replace the value of attribute `n` in an entry, leaving others alone. -/
def updAttr (n : String) (v : Int) (a : String × Int) : String × Int :=
  if a.1 = n then (n, v) else a

/-- Modelled from the spec: writing a declared attribute updates its stored
value and records the attribute as changed for the pending batch; no sync
method runs synchronously at write time. Writing an undeclared name is
outside the attribute machinery and is ignored by it. -/
def setAttr (c : CompState) (n : String) (v : Int) : CompState :=
  if n ∈ attrNames c.attrs then
    { c with
      attrs := c.attrs.map (updAttr n v)
      pending := if n ∈ c.pending then c.pending else c.pending ++ [n] }
  else c

/-- The sync-method invocations delivered by a batch flush: every pending
attribute that has a sync method, with its current (latest) value. -/
def changedSyncs (c : CompState) : List (String × Int) :=
  c.attrs.filter (fun a => decide (a.1 ∈ c.pending ∧ a.1 ∈ c.syncNames))

/-- Modelled from the spec: the next-tick flush of the pending attribute
batch. If anything is pending, every matching sync method runs once with
the latest value, exactly one `attrsChanged` event fires for the whole
batch, and the batch is cleared. -/
def flushTick (c : CompState) : CompState :=
  if c.pending.isEmpty then c
  else
    { c with
      syncLog := c.syncLog ++ changedSyncs c
      attrsChangedCount := c.attrsChangedCount + 1
      pending := [] }

/-- Insert or override one attribute definition, keeping declaration order:
an existing name keeps its position (the value is overridden), a new name
is appended. -/
def upsert (acc : List (String × Int)) (a : String × Int) : List (String × Int) :=
  if a.1 ∈ attrNames acc then acc.map (fun b => if b.1 = a.1 then a else b)
  else acc ++ [a]

/-- Modelled from the spec: merge the static attribute-definition hints of
the whole inheritance chain, base classes first, subclasses overriding. -/
def mergeAttrDefs (chain : List (List (String × Int))) : List (String × Int) :=
  chain.foldl (fun acc lvl => lvl.foldl upsert acc) []

/-- Association-list lookup by component id (the JS object heap). -/
def assocGet : List (String × CompState) → String → Option CompState
  | [], _ => none
  | p :: ps, cid => if p.1 = cid then some p.2 else assocGet ps cid

/-- Association-list update by component id; never inserts a new key. -/
def assocSet : List (String × CompState) → String → CompState → List (String × CompState)
  | [], _, _ => []
  | p :: ps, cid, c =>
    if p.1 = cid then (cid, c) :: assocSet ps cid c else p :: assocSet ps cid c

/-- Modelled from the spec: the process-wide state — the JS object heap of
component instances by id, and the ids currently registered in the
`ComponentCollector` directory. -/
structure World where
  heap : List (String × CompState)
  collectorIds : List String
  deriving Repr, DecidableEq

/-- Read a component instance from the heap (follow a JS reference). -/
def heapGet (w : World) (cid : String) : Option CompState :=
  assocGet w.heap cid

/-- Overwrite a component instance in the heap (mutate through a JS
reference). -/
def heapSet (w : World) (cid : String) (c : CompState) : World :=
  { w with heap := assocSet w.heap cid c }

/-- Modelled from the spec: `ComponentCollector.removeComponent`. -/
def removeFromCollector (w : World) (cid : String) : World :=
  { w with collectorIds := w.collectorIds.erase cid }

/-- Modelled from the spec: `ComponentCollector.getComponent` — only
components currently registered in the collector are returned. -/
def getComponent (w : World) (cid : String) : Option CompState :=
  if cid ∈ w.collectorIds then heapGet w cid else none

/-- The dispose-exactly-once bookkeeping invariant: a live component has
never been torn down, a disposed one exactly once. -/
def CountInv (w : World) : Prop :=
  ∀ p ∈ w.heap, p.2.disposeCount = if p.2.disposed then 1 else 0

instance : DecidablePred CountInv := fun w =>
  inferInstanceAs (Decidable (∀ p ∈ w.heap, _))

/-- The teardown applied to a component the first time it is disposed:
detach (removing the element from the document, firing `detached` if it
was attached), drop all event listeners, and mark the instance disposed. -/
def teardown (c : CompState) : CompState :=
  { c with
    disposed := true
    disposeCount := c.disposeCount + 1
    inDocument := false
    detachedCount := c.detachedCount + (if c.inDocument then 1 else 0)
    listeners := [] }

/-- Modelled from the spec: `dispose()` with explicit recursion fuel.
If the component is already disposed this is a no-op; otherwise it is torn
down (detached, listeners dropped, marked disposed), every owned
sub-component is disposed in turn — tolerating children that are shared
with another parent or already disposed, thanks to the disposed-guard —
and the component is removed from the collector. The disposed flag is set
before recursing into children, which is observationally equivalent for
the guard and makes the recursion well-founded. -/
def disposeFuel : Nat → World → String → World
  | 0, w, _ => w
  | n + 1, w, cid =>
    match heapGet w cid with
    | none => w
    | some c =>
      if c.disposed then w
      else
        removeFromCollector
          (c.subComponents.foldl (fun acc k => disposeFuel n acc k)
            (heapSet w cid (teardown c)))
          cid

/-- `dispose()` on the component referenced by `cid`: the heap size bounds
the number of components that can still be torn down, so it is enough
fuel. -/
def dispose (w : World) (cid : String) : World :=
  disposeFuel (w.heap.length + 1) w cid

/-- Modelled from the spec: resolve one `events` entry to a handler.
A function value attaches directly; a method name resolves on the
component itself; an `"otherId:name"` pair resolves through the collector;
a `{fn, selector}` descriptor resolves `fn` on the component and attaches
as a delegated listener. A failed resolution yields `none` (the entry is
skipped with a logged error; nothing is thrown). -/
def resolveHandler (w : World) (c : CompState) : HandlerDesc → Option Resolved
  | .fnVal t => some (.fnVal t)
  | .methodName name =>
    if name ∈ c.methods then some (.selfMethod name) else none
  | .otherComp cid name =>
    match getComponent w cid with
    | none => none
    | some oc => if name ∈ oc.methods then some (.otherMethod cid name) else none
  | .delegated fname sel =>
    if fname ∈ c.methods then some (.delegated fname sel) else none

/-- The listener ledger produced by wiring an `events` map: one listener
per resolvable entry, in map order. -/
def resolveEntries (w : World) (c : CompState) :
    List (String × HandlerDesc) → List (String × Resolved)
  | [] => []
  | e :: es =>
    match resolveHandler w c e.2 with
    | some r => (e.1, r) :: resolveEntries w c es
    | none => resolveEntries w c es

/-- The number of `console.error` logs produced while wiring an `events`
map: one per unresolvable entry. -/
def resolveErrors (w : World) (c : CompState) : List (String × HandlerDesc) → Nat
  | [] => 0
  | e :: es =>
    (match resolveHandler w c e.2 with | some _ => 0 | none => 1) +
      resolveErrors w c es

/-- Modelled from the spec: assigning the `events` attribute first removes
every listener attached for the old value, then attaches one listener per
resolvable entry of the new value; unresolvable entries are skipped with a
logged error (returned as the second component) and never throw. -/
def setEvents (w : World) (c : CompState) (m : List (String × HandlerDesc)) :
    CompState × Nat :=
  ({ c with eventsMap := m, listeners := resolveEntries w c m }, resolveErrors w c m)

/-- The handlers triggered by emitting event `ev` on the component, in
attachment order. -/
def emit (c : CompState) (ev : String) : List Resolved :=
  (c.listeners.filter (fun p => decide (p.1 = ev))).map Prod.snd

/-- A DOM element reference supplied in a configuration, carrying its
current `id` attribute (possibly empty). -/
structure ElemRef where
  elemId : String
  deriving Repr, DecidableEq

/-- The configuration slice relevant to id resolution: an optional `id`
value and an optional pre-existing element. -/
structure Config where
  cfgId : Option String
  cfgElement : Option ElemRef
  deriving Repr, DecidableEq

/-- Modelled from the spec: the auto-generated unique component id
(a fresh counter rendered into a prefixed string). -/
def makeId (n : Nat) : String := "metal_" ++ toString n

/-- Modelled from the spec: the component id is the configured `id` if
present; otherwise the supplied element's non-empty id attribute if an
element was supplied; otherwise an auto-generated id. Resolving the
default id does not force element creation. -/
def resolveComponentId (cfg : Config) (n : Nat) : String :=
  match cfg.cfgId with
  | some i => i
  | none =>
    match cfg.cfgElement with
    | some el => if el.elemId = "" then makeId n else el.elemId
    | none => makeId n

/-- Modelled from the spec: construction assigns the resolved id and
records whether an element was supplied (the element is otherwise created
lazily on first render). -/
def mkComponent (cfg : Config) (n : Nat) : CompState :=
  { emptyComp with
    id := resolveComponentId cfg n
    elementSet := cfg.cfgElement.isSome }

/-- A fresh unrendered component used by concrete witnesses. -/
def freshComp : CompState := { emptyComp with id := "c1" }

/-- A component already rendered and attached, used by concrete
witnesses. -/
def renderedComp : CompState :=
  { emptyComp with id := "c2", wasRendered := true, inDocument := true }

/-- The subtype of the test "should add default component elementClasses
from static hint": `ELEMENT_CLASSES = 'overwritten1 overwritten2'` on the
subtype, base marker class from the base class. -/
def hintComp : CompState :=
  { emptyComp with
    id := "hint"
    staticClasses := [["overwritten1", "overwritten2"], ["component"]] }

/-- The component of the test "should set component elementClasses attr":
constructed with `{elementClasses: 'foo bar'}` and no subtype hint. -/
def fooBarComp : CompState :=
  { emptyComp with id := "fb", elementClasses := ["foo", "bar"] }

/-- The rendered component of the coalescing test: one declared attribute
`foo` (current value 10 after the configured write) with a sync method. -/
def fooComp : CompState :=
  { emptyComp with
    id := "foo-comp"
    attrs := [("foo", 10)]
    syncNames := ["foo"]
    wasRendered := true
    inDocument := true }

/-- The attribute-definition chain of the supertype test: the base class
declares `foo`, the subtype declares `bar`. -/
def exChain : List (List (String × Int)) := [[("foo", 0)], [("bar", 1)]]

/-- A subtype instance over `exChain` with sync methods for both
attributes. -/
def chainComp : CompState :=
  { emptyComp with
    id := "chain"
    attrs := mergeAttrDefs exChain
    syncNames := ["foo", "bar"] }

/-- The shared sub-component scenario of the dispose tests: `custom` owns
`child` and `another`, and `another` also owns `child`. -/
def wChild : CompState :=
  { emptyComp with id := "child", wasRendered := true, inDocument := true }

/-- The second parent of the shared child. -/
def wAnother : CompState :=
  { emptyComp with
    id := "another"
    wasRendered := true
    inDocument := true
    subComponents := ["child"] }

/-- The component disposed in the shared sub-component scenario. -/
def wCustom : CompState :=
  { emptyComp with
    id := "custom"
    wasRendered := true
    inDocument := true
    subComponents := ["child", "another"] }

/-- The world of the shared sub-component scenario. -/
def exWorld : World :=
  { heap := [("custom", wCustom), ("another", wAnother), ("child", wChild)]
    collectorIds := ["custom", "another", "child"] }

/-- An empty world: nothing in the heap, nothing in the collector. -/
def emptyWorld : World := { heap := [], collectorIds := [] }

/-! ## Helper lemmas -/

theorem makeId_ne_empty (n : Nat) : makeId n ≠ "" := by
  intro h
  have h2 : (makeId n).length = 0 := by rw [h]; rfl
  rw [makeId, String.length_append] at h2
  have h3 : ("metal_").length = 6 := rfl
  omega

theorem renderInternal_id (c : CompState) (b : Bool) :
    (renderInternal c b).id = c.id := rfl

theorem detach_id (c : CompState) : (detach c).id = c.id := by
  rw [detach]; split <;> rfl

theorem attach_id (c : CompState) : (attach c).id = c.id := by
  rw [attach]; split <;> rfl

/-! ## Claims -/

/-- C1: for every component, the first call to `render()` (or `decorate()`)
succeeds and invokes the `attached` hook exactly once, and any second call
to `render()` (or `decorate()`) on the same instance throws
`AlreadyRenderedError` synchronously, leaving the instance unchanged, so
`attached` is not invoked again. -/
theorem c1_first_render_succeeds_second_throws (c : CompState)
    (h : c.wasRendered = false) :
    (∃ c1, render c = .ok c1 ∧ c1.attachedCount = c.attachedCount + 1 ∧
      render c1 = .error .alreadyRendered ∧
      decorate c1 = .error .alreadyRendered) ∧
    (∃ c2, decorate c = .ok c2 ∧ c2.attachedCount = c.attachedCount + 1 ∧
      render c2 = .error .alreadyRendered ∧
      decorate c2 = .error .alreadyRendered) := by
  constructor
  · refine ⟨renderInternal c false, ?_, rfl, ?_, ?_⟩
    · simp [render, h]
    · simp [render, renderInternal]
    · simp [decorate, renderInternal]
  · refine ⟨renderInternal c true, ?_, rfl, ?_, ?_⟩
    · simp [decorate, h]
    · simp [render, renderInternal]
    · simp [decorate, renderInternal]

/-- Witness for C1 at the fresh component of the lifecycle tests. -/
theorem c1_witness :
    freshComp.wasRendered = false ∧
    ((∃ c1, render freshComp = .ok c1 ∧
        c1.attachedCount = freshComp.attachedCount + 1 ∧
        render c1 = .error .alreadyRendered ∧
        decorate c1 = .error .alreadyRendered) ∧
      (∃ c2, decorate freshComp = .ok c2 ∧
        c2.attachedCount = freshComp.attachedCount + 1 ∧
        render c2 = .error .alreadyRendered ∧
        decorate c2 = .error .alreadyRendered)) :=
  ⟨rfl, c1_first_render_succeeds_second_throws freshComp rfl⟩

/-- C7: for every rendered component, `detach()` and `attach()` are
idempotent — a second consecutive call is a no-op and each hook fires
exactly once per transition — and every `attach()` performed while
detached re-invokes the `attached` hook and restores `inDocument`. -/
theorem c7_attach_detach_idempotent (c : CompState)
    (h : c.wasRendered = true) :
    detach (detach c) = detach c ∧
    attach (attach c) = attach c ∧
    (c.inDocument = true →
      (detach c).detachedCount = c.detachedCount + 1 ∧
      (detach c).inDocument = false) ∧
    (c.inDocument = false →
      (attach c).attachedCount = c.attachedCount + 1 ∧
      (attach c).inDocument = true) := by
  have hdet : detach (detach c) = detach c := by
    cases hd : c.inDocument <;> simp [detach, hd]
  have hatt : attach (attach c) = attach c := by
    cases hd : c.inDocument <;> simp [attach, hd]
  refine ⟨hdet, hatt, ?_, ?_⟩
  · intro hd; simp [detach, hd]
  · intro hd; simp [attach, hd]

/-- Witness for C7 at a rendered, attached component. -/
theorem c7_witness :
    renderedComp.wasRendered = true ∧
    (detach (detach renderedComp) = detach renderedComp ∧
      attach (attach renderedComp) = attach renderedComp ∧
      (renderedComp.inDocument = true →
        (detach renderedComp).detachedCount = renderedComp.detachedCount + 1 ∧
        (detach renderedComp).inDocument = false) ∧
      (renderedComp.inDocument = false →
        (attach renderedComp).attachedCount = renderedComp.attachedCount + 1 ∧
        (attach renderedComp).inDocument = true)) :=
  ⟨rfl, c7_attach_detach_idempotent renderedComp rfl⟩

/-- C9: a component constructed without an `id` in its configuration gets a
non-empty id; when no element is supplied either, it is the auto-generated
one. This also covers a configuration supplying an existing element. -/
theorem c9_auto_id_nonempty (cfg : Config) (n : Nat)
    (h : cfg.cfgId = none) :
    (mkComponent cfg n).id ≠ "" ∧
    (cfg.cfgElement = none → (mkComponent cfg n).id = makeId n) := by
  constructor
  · show resolveComponentId cfg n ≠ ""
    cases he : cfg.cfgElement with
    | none =>
      simp only [resolveComponentId, h, he]
      exact makeId_ne_empty n
    | some el =>
      simp only [resolveComponentId, h, he]
      split
      · exact makeId_ne_empty n
      · assumption
  · intro he
    show resolveComponentId cfg n = makeId n
    simp only [resolveComponentId, h, he]

/-- Witness for C9 at a configuration supplying an element but no id. -/
theorem c9_witness :
    ({ cfgId := none, cfgElement := some { elemId := "elementId" } } :
        Config).cfgId = none ∧
    ((mkComponent
        { cfgId := none, cfgElement := some { elemId := "elementId" } } 0).id ≠
      "" ∧
      (({ cfgId := none, cfgElement := some { elemId := "elementId" } } :
          Config).cfgElement = none →
        (mkComponent
          { cfgId := none,
            cfgElement := some { elemId := "elementId" } } 0).id = makeId 0)) :=
  ⟨rfl, c9_auto_id_nonempty
    { cfgId := none, cfgElement := some { elemId := "elementId" } } 0 rfl⟩

/-- C10: the lifecycle methods `render()`, `decorate()`, `attach()` and
`detach()` each return the component instance itself (`this`, surfaced as
the receiver's identity), so lifecycle calls can be chained. -/
theorem c10_lifecycle_methods_return_self (c : CompState)
    (h : c.wasRendered = false) :
    (∃ c1, renderSelf c = .ok (c1, c.id)) ∧
    (∃ c2, decorateSelf c = .ok (c2, c.id)) ∧
    detachSelf c = (detach c, c.id) ∧
    attachSelf c = (attach c, c.id) := by
  refine ⟨⟨renderInternal c false, ?_⟩, ⟨renderInternal c true, ?_⟩, ?_, ?_⟩
  · rw [renderSelf, render, h]
    rfl
  · rw [decorateSelf, decorate, h]
    rfl
  · rw [detachSelf, detach_id]
  · rw [attachSelf, attach_id]

/-- Witness for C10 at the fresh component of the chaining test. -/
theorem c10_witness :
    freshComp.wasRendered = false ∧
    ((∃ c1, renderSelf freshComp = .ok (c1, freshComp.id)) ∧
      (∃ c2, decorateSelf freshComp = .ok (c2, freshComp.id)) ∧
      detachSelf freshComp = (detach freshComp, freshComp.id) ∧
      attachSelf freshComp = (attach freshComp, freshComp.id)) :=
  ⟨rfl, c10_lifecycle_methods_return_self freshComp rfl⟩

/-- C5 counterexample: the claim's ordering — base marker class first, then
static default classes — is falsified by the subtype of the test
"should add default component elementClasses from static hint": with
`ELEMENT_CLASSES = 'overwritten1 overwritten2'`, rendering yields the class
list `[overwritten1, overwritten2, component]`, not the claimed
`[component, overwritten1, overwritten2]`. -/
theorem c5_counterexample :
    render hintComp = .ok (renderInternal hintComp false) ∧
    (renderInternal hintComp false).classList =
      ["overwritten1", "overwritten2", "component"] ∧
    specClassOrder "component" ["overwritten1", "overwritten2"] [] =
      ["component", "overwritten1", "overwritten2"] ∧
    (["overwritten1", "overwritten2", "component"] : List String) ≠
      ["component", "overwritten1", "overwritten2"] := by
  refine ⟨rfl, by decide, by decide, by decide⟩

/-- C5 (amended): on first render the element's class list is recomputed as
the merged static default classes (subtype contributions first, the base
marker class contributed last by the base class) followed by the current
`elementClasses` value; in particular a component constructed with
`{elementClasses: 'foo bar'}` and no subtype defaults has, after render,
the class list exactly `[component, foo, bar]` in that order. -/
theorem c5_class_list_order_amended (c : CompState)
    (h : c.wasRendered = false) :
    ∃ c1, render c = .ok c1 ∧
      c1.classList =
        dedupAppend (mergeElementClasses c.staticClasses) c.elementClasses ∧
      (c.staticClasses = [["component"]] → c.elementClasses = ["foo", "bar"] →
        c1.classList = ["component", "foo", "bar"]) := by
  refine ⟨renderInternal c false, by simp [render, h], rfl, ?_⟩
  intro h1 h2
  show computeClassList c = _
  rw [computeClassList, h1, h2]
  decide

/-- Witness for C5 (amended) at the `{elementClasses: 'foo bar'}` component
of the test "should set component elementClasses attr". -/
theorem c5_witness :
    fooBarComp.wasRendered = false ∧
    (∃ c1, render fooBarComp = .ok c1 ∧
      c1.classList =
        dedupAppend (mergeElementClasses fooBarComp.staticClasses)
          fooBarComp.elementClasses ∧
      (fooBarComp.staticClasses = [["component"]] →
        fooBarComp.elementClasses = ["foo", "bar"] →
        c1.classList = ["component", "foo", "bar"])) :=
  ⟨rfl, c5_class_list_order_amended fooBarComp rfl⟩

/-- C6: reassigning the `events` attribute first removes every listener
attached for the old value and then attaches listeners for the new value:
after replacing `{event1: fn1}` with `{event2: fn2}`, emitting `event1`
triggers nothing while emitting `event2` triggers `fn2` exactly once. -/
theorem c6_events_reassignment_detaches_old (w w2 : World) (c : CompState)
    (f1 f2 : Nat) :
    emit (setEvents w c [("event1", .fnVal f1)]).1 "event1" = [.fnVal f1] ∧
    (setEvents w2 (setEvents w c [("event1", .fnVal f1)]).1
        [("event2", .fnVal f2)]).1.listeners = [("event2", .fnVal f2)] ∧
    emit (setEvents w2 (setEvents w c [("event1", .fnVal f1)]).1
        [("event2", .fnVal f2)]).1 "event1" = [] ∧
    emit (setEvents w2 (setEvents w c [("event1", .fnVal f1)]).1
        [("event2", .fnVal f2)]).1 "event2" = [.fnVal f2] := by
  refine ⟨?_, ?_, ?_, ?_⟩ <;>
    simp [setEvents, resolveEntries, resolveHandler, emit]

/-- C8: an `events` entry naming a method that does not exist on the
component, or naming another component id that is not live in the
collector, is skipped with exactly one logged error; resolution failures
never throw and the assignment proceeds (the map is stored, no listener is
attached). -/
theorem c8_bad_event_entries_skipped_logged (w w2 : World) (c c2 : CompState)
    (ev name cid mn : String)
    (h1 : name ∉ c.methods) (h2 : getComponent w2 cid = none) :
    (setEvents w c [(ev, .methodName name)]).2 = 1 ∧
    (setEvents w c [(ev, .methodName name)]).1.listeners = [] ∧
    (setEvents w c [(ev, .methodName name)]).1.eventsMap =
      [(ev, .methodName name)] ∧
    (setEvents w2 c2 [(ev, .otherComp cid mn)]).2 = 1 ∧
    (setEvents w2 c2 [(ev, .otherComp cid mn)]).1.listeners = [] ∧
    (setEvents w2 c2 [(ev, .otherComp cid mn)]).1.eventsMap =
      [(ev, .otherComp cid mn)] := by
  refine ⟨?_, ?_, ?_, ?_, ?_, ?_⟩ <;>
    simp [setEvents, resolveEntries, resolveErrors, resolveHandler, h1, h2]

/-- Witness for C8 at the configurations of the two warning tests: a
component with no methods and an events map naming `listener1`, and an
events map naming the component id `unexisting` absent from an empty
world. -/
theorem c8_witness :
    ("listener1" ∉ emptyComp.methods) ∧
    getComponent emptyWorld "unexisting" = none ∧
    ((setEvents emptyWorld emptyComp
        [("event1", .methodName "listener1")]).2 = 1 ∧
      (setEvents emptyWorld emptyComp
        [("event1", .methodName "listener1")]).1.listeners = [] ∧
      (setEvents emptyWorld emptyComp
        [("event1", .methodName "listener1")]).1.eventsMap =
        [("event1", .methodName "listener1")] ∧
      (setEvents emptyWorld emptyComp
        [("event1", .otherComp "unexisting" "listener1")]).2 = 1 ∧
      (setEvents emptyWorld emptyComp
        [("event1", .otherComp "unexisting" "listener1")]).1.listeners = [] ∧
      (setEvents emptyWorld emptyComp
        [("event1", .otherComp "unexisting" "listener1")]).1.eventsMap =
        [("event1", .otherComp "unexisting" "listener1")]) :=
  ⟨by decide, by decide,
    c8_bad_event_entries_skipped_logged emptyWorld emptyWorld emptyComp
      emptyComp "event1" "listener1" "unexisting" "listener1"
      (by decide) (by decide)⟩

theorem updAttr_fst (n : String) (v : Int) (b : String × Int) :
    (updAttr n v b).1 = b.1 := by
  rw [updAttr]
  split
  · rename_i h; exact h.symm
  · rfl

theorem attrNames_map_updAttr (l : List (String × Int)) (n : String) (v : Int) :
    attrNames (l.map (updAttr n v)) = attrNames l := by
  induction l with
  | nil => rfl
  | cons b bs ih =>
    simp only [attrNames, List.map_cons] at ih ⊢
    rw [updAttr_fst, ih]

theorem updAttr_updAttr (n : String) (v1 v2 : Int) (a : String × Int) :
    updAttr n v2 (updAttr n v1 a) = updAttr n v2 a := by
  by_cases h : a.1 = n <;> simp [updAttr, h]

theorem map_map_updAttr (l : List (String × Int)) (n : String) (v1 v2 : Int) :
    (l.map (updAttr n v1)).map (updAttr n v2) = l.map (updAttr n v2) := by
  rw [List.map_map]
  induction l with
  | nil => rfl
  | cons b bs ih => simp only [List.map_cons, Function.comp_apply,
      updAttr_updAttr, ih]

theorem filter_map_updAttr_not_mem (bs : List (String × Int)) (n : String)
    (v : Int) (s : List String) (hn : n ∉ attrNames bs) :
    (bs.map (updAttr n v)).filter
      (fun a => decide (a.1 ∈ [n] ∧ a.1 ∈ s)) = [] := by
  induction bs with
  | nil => rfl
  | cons b bs ih =>
    simp only [attrNames, List.map_cons, List.mem_cons, not_or] at hn
    have hb : b.1 ≠ n := fun h => hn.1 h.symm
    have hrest := ih (by simpa [attrNames] using hn.2)
    simp only [List.map_cons, List.filter_cons]
    rw [updAttr]
    simp only [hb, if_false]
    have hcond : (decide (b.1 ∈ [n] ∧ b.1 ∈ s)) = false := by
      simp [hb]
    rw [hcond]
    exact hrest

theorem filter_map_updAttr_single (l : List (String × Int)) (n : String)
    (v : Int) (s : List String) (hnd : (attrNames l).Nodup)
    (hmem : n ∈ attrNames l) (hs : n ∈ s) :
    (l.map (updAttr n v)).filter
      (fun a => decide (a.1 ∈ [n] ∧ a.1 ∈ s)) = [(n, v)] := by
  induction l with
  | nil => simp [attrNames] at hmem
  | cons b bs ih =>
    simp only [attrNames, List.map_cons] at hnd
    rw [List.nodup_cons] at hnd
    by_cases hb : b.1 = n
    · have hnofoll : n ∉ attrNames bs := by rw [← hb]; exact hnd.1
      simp only [List.map_cons, List.filter_cons]
      rw [updAttr]
      simp only [hb, if_true]
      have hcond : (decide ((n, v).1 ∈ [n] ∧ (n, v).1 ∈ s)) = true := by
        simp [hs]
      rw [hcond]
      rw [filter_map_updAttr_not_mem bs n v s hnofoll]
      simp
    · have hmem2 : n ∈ attrNames bs := by
        rcases (by simpa [attrNames] using hmem : n = b.1 ∨ n ∈ attrNames bs)
          with h | h
        · exact absurd h.symm hb
        · exact h
      simp only [List.map_cons, List.filter_cons]
      rw [updAttr]
      simp only [hb, if_false]
      have hcond : (decide (b.1 ∈ [n] ∧ b.1 ∈ s)) = false := by
        simp [hb]
      rw [hcond]
      exact ih hnd.2 hmem2

/-- C3: on a rendered component with a declared attribute that has a sync
method, two writes within the same synchronous turn coalesce: no sync
method runs at write time, and the next-tick flush invokes the sync method
exactly once with the latest value and fires exactly one `attrsChanged`
event for the batch. -/
theorem c3_attr_writes_coalesce (c : CompState) (n : String) (v1 v2 : Int)
    (hr : c.wasRendered = true)
    (hnd : (attrNames c.attrs).Nodup)
    (hmem : n ∈ attrNames c.attrs)
    (hsync : n ∈ c.syncNames)
    (hp : c.pending = []) :
    (setAttr (setAttr c n v1) n v2).syncLog = c.syncLog ∧
    (setAttr (setAttr c n v1) n v2).attrsChangedCount = c.attrsChangedCount ∧
    (flushTick (setAttr (setAttr c n v1) n v2)).syncLog =
      c.syncLog ++ [(n, v2)] ∧
    (flushTick (setAttr (setAttr c n v1) n v2)).attrsChangedCount =
      c.attrsChangedCount + 1 ∧
    (flushTick (setAttr (setAttr c n v1) n v2)).pending = [] := by
  have hc2 : setAttr (setAttr c n v1) n v2 =
      { c with attrs := c.attrs.map (updAttr n v2), pending := [n] } := by
    simp [setAttr, hp, hmem, attrNames_map_updAttr]
    intro a b _
    exact updAttr_updAttr n v1 v2 (a, b)
  have hfil := filter_map_updAttr_single c.attrs n v2 c.syncNames hnd hmem hsync
  rw [hc2]
  refine ⟨rfl, rfl, ?_, ?_, ?_⟩
  · simp [flushTick, changedSyncs]
    simpa using hfil
  · simp [flushTick]
  · simp [flushTick]

/-- Witness for C3 at the component of the coalescing test: declared
attribute `foo` with a sync method, written twice in one turn. -/
theorem c3_witness :
    fooComp.wasRendered = true ∧
    (attrNames fooComp.attrs).Nodup ∧
    "foo" ∈ attrNames fooComp.attrs ∧
    "foo" ∈ fooComp.syncNames ∧
    fooComp.pending = [] ∧
    ((setAttr (setAttr fooComp "foo" 1) "foo" 2).syncLog = fooComp.syncLog ∧
      (setAttr (setAttr fooComp "foo" 1) "foo" 2).attrsChangedCount =
        fooComp.attrsChangedCount ∧
      (flushTick (setAttr (setAttr fooComp "foo" 1) "foo" 2)).syncLog =
        fooComp.syncLog ++ [("foo", 2)] ∧
      (flushTick (setAttr (setAttr fooComp "foo" 1) "foo" 2)).attrsChangedCount =
        fooComp.attrsChangedCount + 1 ∧
      (flushTick (setAttr (setAttr fooComp "foo" 1) "foo" 2)).pending = []) :=
  ⟨rfl, by decide, by decide, by decide, rfl,
    c3_attr_writes_coalesce fooComp "foo" 1 2 rfl (by decide) (by decide)
      (by decide) rfl⟩

theorem attrNames_map_override (acc : List (String × Int)) (a : String × Int) :
    attrNames (acc.map (fun b => if b.1 = a.1 then a else b)) =
      attrNames acc := by
  induction acc with
  | nil => rfl
  | cons b bs ih =>
    simp only [attrNames, List.map_cons] at ih ⊢
    have hfst : (if b.1 = a.1 then a else b).1 = b.1 := by
      split
      · rename_i hb; exact hb.symm
      · rfl
    rw [hfst, ih]

theorem attrNames_upsert (acc : List (String × Int)) (a : String × Int) :
    attrNames (upsert acc a) =
      if a.1 ∈ attrNames acc then attrNames acc
      else attrNames acc ++ [a.1] := by
  rw [upsert]
  split
  · exact attrNames_map_override acc a
  · simp [attrNames]

theorem mem_attrNames_upsert (acc : List (String × Int)) (a : String × Int)
    (x : String) (hx : x ∈ attrNames acc) : x ∈ attrNames (upsert acc a) := by
  rw [attrNames_upsert]
  split
  · exact hx
  · exact List.mem_append_left _ hx

theorem self_mem_attrNames_upsert (acc : List (String × Int))
    (a : String × Int) : a.1 ∈ attrNames (upsert acc a) := by
  rw [attrNames_upsert]
  split
  · assumption
  · exact List.mem_append_right _ (List.mem_singleton.mpr rfl)

theorem nodup_attrNames_upsert (acc : List (String × Int)) (a : String × Int)
    (h : (attrNames acc).Nodup) : (attrNames (upsert acc a)).Nodup := by
  rw [attrNames_upsert]
  split
  · exact h
  · rename_i hna
    simp [List.nodup_append, h, hna]

theorem mem_attrNames_foldl_upsert (lvl : List (String × Int))
    (acc : List (String × Int)) (x : String) (hx : x ∈ attrNames acc) :
    x ∈ attrNames (lvl.foldl upsert acc) := by
  induction lvl generalizing acc with
  | nil => exact hx
  | cons b bs ih => exact ih (upsert acc b) (mem_attrNames_upsert acc b x hx)

theorem mem_level_attrNames_foldl_upsert (lvl : List (String × Int))
    (acc : List (String × Int)) (a : String × Int) (ha : a ∈ lvl) :
    a.1 ∈ attrNames (lvl.foldl upsert acc) := by
  induction lvl generalizing acc with
  | nil => cases ha
  | cons b bs ih =>
    rcases List.mem_cons.mp ha with h | h
    · subst h
      exact mem_attrNames_foldl_upsert bs (upsert acc a) a.1
        (self_mem_attrNames_upsert acc a)
    · exact ih (upsert acc b) h

theorem nodup_attrNames_foldl_upsert (lvl : List (String × Int))
    (acc : List (String × Int)) (h : (attrNames acc).Nodup) :
    (attrNames (lvl.foldl upsert acc)).Nodup := by
  induction lvl generalizing acc with
  | nil => exact h
  | cons b bs ih => exact ih (upsert acc b) (nodup_attrNames_upsert acc b h)

theorem mem_attrNames_foldl_chain (chain : List (List (String × Int)))
    (acc : List (String × Int)) (x : String) (hx : x ∈ attrNames acc) :
    x ∈ attrNames (chain.foldl (fun acc2 lvl => lvl.foldl upsert acc2) acc) := by
  induction chain generalizing acc with
  | nil => exact hx
  | cons l ls ih =>
    exact ih (l.foldl upsert acc) (mem_attrNames_foldl_upsert l acc x hx)

theorem nodup_attrNames_foldl_chain (chain : List (List (String × Int)))
    (acc : List (String × Int)) (h : (attrNames acc).Nodup) :
    (attrNames
      (chain.foldl (fun acc2 lvl => lvl.foldl upsert acc2) acc)).Nodup := by
  induction chain generalizing acc with
  | nil => exact h
  | cons l ls ih =>
    exact ih (l.foldl upsert acc) (nodup_attrNames_foldl_upsert l acc h)

theorem mem_attrNames_foldl_chain_of_level (chain : List (List (String × Int)))
    (acc : List (String × Int)) (lvl : List (String × Int))
    (a : String × Int) (hl : lvl ∈ chain) (ha : a ∈ lvl) :
    a.1 ∈ attrNames
      (chain.foldl (fun acc2 lvl2 => lvl2.foldl upsert acc2) acc) := by
  induction chain generalizing acc with
  | nil => cases hl
  | cons l ls ih =>
    rcases List.mem_cons.mp hl with h | h
    · subst h
      exact mem_attrNames_foldl_chain ls (lvl.foldl upsert acc) a.1
        (mem_level_attrNames_foldl_upsert lvl acc a ha)
    · exact ih (l.foldl upsert acc) h

theorem nodup_attrNames_mergeAttrDefs (chain : List (List (String × Int))) :
    (attrNames (mergeAttrDefs chain)).Nodup :=
  nodup_attrNames_foldl_chain chain [] List.nodup_nil

theorem mem_attrNames_mergeAttrDefs (chain : List (List (String × Int)))
    (lvl : List (String × Int)) (a : String × Int)
    (hl : lvl ∈ chain) (ha : a ∈ lvl) :
    a.1 ∈ attrNames (mergeAttrDefs chain) := by
  rw [mergeAttrDefs]
  exact mem_attrNames_foldl_chain_of_level chain [] lvl a hl ha

theorem mem_syncPass_of_mem (c : CompState) (x : String)
    (hx : x ∈ attrNames c.attrs) (hs : x ∈ c.syncNames) :
    x ∈ (syncPass c).map Prod.fst := by
  rcases List.mem_map.mp hx with ⟨a, ha, rfl⟩
  exact List.mem_map.mpr
    ⟨a, List.mem_filter.mpr ⟨ha, by simpa using hs⟩, rfl⟩

theorem nodup_syncPass (c : CompState) (h : (attrNames c.attrs).Nodup) :
    ((syncPass c).map Prod.fst).Nodup :=
  ((List.filter_sublist c.attrs).map Prod.fst).nodup h

/-- C4: the first render invokes, exactly once each and in declaration
order (supertype declarations merged first), the sync method of every
declared attribute that has one, passing the attribute's current value;
sync-style methods for undeclared attributes are never invoked (every
delivered entry is a declared attribute with a sync method). -/
theorem c4_render_fires_sync_methods (c : CompState)
    (chain : List (List (String × Int)))
    (hr : c.wasRendered = false) (hc : c.attrs = mergeAttrDefs chain) :
    ∃ c1, render c = .ok c1 ∧
      c1.syncLog = c.syncLog ++ syncPass c ∧
      ((syncPass c).map Prod.fst).Nodup ∧
      (∀ lvl ∈ chain, ∀ a ∈ lvl, a.1 ∈ c.syncNames →
        a.1 ∈ (syncPass c).map Prod.fst) ∧
      (∀ e ∈ syncPass c, e ∈ c.attrs ∧ e.1 ∈ c.syncNames) := by
  refine ⟨renderInternal c false, by simp [render, hr], rfl, ?_, ?_, ?_⟩
  · exact nodup_syncPass c (hc ▸ nodup_attrNames_mergeAttrDefs chain)
  · intro lvl hl a ha hs
    refine mem_syncPass_of_mem c a.1 ?_ hs
    rw [hc]
    exact mem_attrNames_mergeAttrDefs chain lvl a hl ha
  · intro e he
    have h2 := List.mem_filter.mp he
    exact ⟨h2.1, by simpa using h2.2⟩

/-- Witness for C4 at the supertype-chain test: the base class declares
`foo`, the subtype declares `bar`, and both have sync methods. -/
theorem c4_witness :
    chainComp.wasRendered = false ∧
    chainComp.attrs = mergeAttrDefs exChain ∧
    (∃ c1, render chainComp = .ok c1 ∧
      c1.syncLog = chainComp.syncLog ++ syncPass chainComp ∧
      ((syncPass chainComp).map Prod.fst).Nodup ∧
      (∀ lvl ∈ exChain, ∀ a ∈ lvl, a.1 ∈ chainComp.syncNames →
        a.1 ∈ (syncPass chainComp).map Prod.fst) ∧
      (∀ e ∈ syncPass chainComp,
        e ∈ chainComp.attrs ∧ e.1 ∈ chainComp.syncNames)) :=
  ⟨rfl, rfl, c4_render_fires_sync_methods chainComp exChain rfl rfl⟩

theorem assocGet_mem (l : List (String × CompState)) (cid : String)
    (c : CompState) (h : assocGet l cid = some c) : (cid, c) ∈ l := by
  induction l with
  | nil => simp [assocGet] at h
  | cons p ps ih =>
    by_cases hp : p.1 = cid
    · simp only [assocGet, hp, if_true] at h
      have hc : c = p.2 := (Option.some.inj h).symm
      subst hc
      subst hp
      exact List.mem_cons_self _ _
    · simp only [assocGet, hp, if_false] at h
      exact List.mem_cons_of_mem _ (ih h)

theorem assocGet_assocSet_self (l : List (String × CompState)) (cid : String)
    (c c0 : CompState) (h : assocGet l cid = some c0) :
    assocGet (assocSet l cid c) cid = some c := by
  induction l with
  | nil => simp [assocGet] at h
  | cons p ps ih =>
    by_cases hp : p.1 = cid
    · simp [assocGet, assocSet, hp]
    · simp only [assocGet, assocSet, hp, if_false] at h ⊢
      exact ih h

theorem assocGet_assocSet_ne (l : List (String × CompState))
    (cid x : String) (c : CompState) (hx : x ≠ cid) :
    assocGet (assocSet l cid c) x = assocGet l x := by
  induction l with
  | nil => rfl
  | cons p ps ih =>
    by_cases hp : p.1 = cid
    · simp only [assocSet, hp, if_true, assocGet]
      rw [if_neg (fun h => hx h.symm), if_neg (fun h => hx h.symm), ih]
    · simp only [assocSet, hp, if_false, assocGet]
      by_cases hpx : p.1 = x
      · rw [if_pos hpx, if_pos hpx]
      · rw [if_neg hpx, if_neg hpx, ih]

theorem mem_assocSet (l : List (String × CompState)) (cid : String)
    (c : CompState) (q : String × CompState) (hq : q ∈ assocSet l cid c) :
    q = (cid, c) ∨ q ∈ l := by
  induction l with
  | nil => simp [assocSet] at hq
  | cons p ps ih =>
    by_cases hp : p.1 = cid
    · simp only [assocSet, hp, if_true, List.mem_cons] at hq
      rcases hq with h | h
      · exact Or.inl h
      · rcases ih h with h2 | h2
        · exact Or.inl h2
        · exact Or.inr (List.mem_cons_of_mem _ h2)
    · simp only [assocSet, hp, if_false, List.mem_cons] at hq
      rcases hq with h | h
      · exact Or.inr (h ▸ List.mem_cons_self _ _)
      · rcases ih h with h2 | h2
        · exact Or.inl h2
        · exact Or.inr (List.mem_cons_of_mem _ h2)

theorem heapGet_heapSet_self (w : World) (cid : String) (c c0 : CompState)
    (h : heapGet w cid = some c0) : heapGet (heapSet w cid c) cid = some c :=
  assocGet_assocSet_self w.heap cid c c0 h

theorem heapGet_heapSet_ne (w : World) (cid x : String) (c : CompState)
    (hx : x ≠ cid) : heapGet (heapSet w cid c) x = heapGet w x :=
  assocGet_assocSet_ne w.heap cid x c hx

theorem heapGet_removeFromCollector (w : World) (cid x : String) :
    heapGet (removeFromCollector w cid) x = heapGet w x := rfl

theorem collectorIds_heapSet (w : World) (cid : String) (c : CompState) :
    (heapSet w cid c).collectorIds = w.collectorIds := rfl

theorem countInv_heapSet (w : World) (cid : String) (c : CompState)
    (hc : c.disposeCount = if c.disposed then 1 else 0)
    (h : CountInv w) : CountInv (heapSet w cid c) := by
  intro q hq
  rcases mem_assocSet w.heap cid c q hq with h2 | h2
  · rw [h2]; exact hc
  · exact h q h2

theorem countInv_removeFromCollector (w : World) (cid : String)
    (h : CountInv w) : CountInv (removeFromCollector w cid) := h

theorem heapGet_some_length (w : World) (cid : String) (c : CompState)
    (h : heapGet w cid = some c) : 1 ≤ w.heap.length := by
  cases hh : w.heap with
  | nil => rw [heapGet, hh] at h; simp [assocGet] at h
  | cons p ps => simp

theorem disposeFuel_frozen (n : Nat) :
    ∀ (w : World) (k x : String) (c : CompState),
      heapGet w x = some c → c.disposed = true →
      heapGet (disposeFuel n w k) x = some c := by
  induction n with
  | zero => intro w k x c h _; exact h
  | succ n ih =>
    intro w k x c h hd
    have hfold : ∀ (l : List String) (w2 : World), heapGet w2 x = some c →
        heapGet (l.foldl (fun acc y => disposeFuel n acc y) w2) x = some c := by
      intro l
      induction l with
      | nil => intro w2 h2; exact h2
      | cons y ys ihl => intro w2 h2; exact ihl _ (ih w2 y x c h2 hd)
    rw [disposeFuel]
    cases hk : heapGet w k with
    | none => exact h
    | some ck =>
      dsimp only
      by_cases hdk : ck.disposed = true
      · rw [if_pos hdk]
        exact h
      · rw [if_neg hdk]
        have hx : x ≠ k := by
          intro he
          rw [he, hk] at h
          have hce : ck = c := Option.some.inj h
          exact hdk (by rw [hce]; exact hd)
        rw [heapGet_removeFromCollector]
        exact hfold _ _ (by rw [heapGet_heapSet_ne w k x (teardown ck) hx]; exact h)

theorem disposeFold_frozen (n : Nat) (l : List String) :
    ∀ (w : World) (x : String) (c : CompState),
      heapGet w x = some c → c.disposed = true →
      heapGet (l.foldl (fun acc y => disposeFuel n acc y) w) x = some c := by
  induction l with
  | nil => intro w x c h _; exact h
  | cons y ys ih =>
    intro w x c h hd
    exact ih _ x c (disposeFuel_frozen n w y x c h hd) hd

theorem disposeFuel_none (n : Nat) :
    ∀ (w : World) (k x : String),
      heapGet w x = none → heapGet (disposeFuel n w k) x = none := by
  induction n with
  | zero => intro w k x h; exact h
  | succ n ih =>
    intro w k x h
    have hfold : ∀ (l : List String) (w2 : World), heapGet w2 x = none →
        heapGet (l.foldl (fun acc y => disposeFuel n acc y) w2) x = none := by
      intro l
      induction l with
      | nil => intro w2 h2; exact h2
      | cons y ys ihl => intro w2 h2; exact ihl _ (ih w2 y x h2)
    rw [disposeFuel]
    cases hk : heapGet w k with
    | none => exact h
    | some ck =>
      dsimp only
      by_cases hdk : ck.disposed = true
      · rw [if_pos hdk]
        exact h
      · rw [if_neg hdk]
        have hx : x ≠ k := by
          intro he
          rw [he, hk] at h
          cases h
        rw [heapGet_removeFromCollector]
        exact hfold _ _ (by rw [heapGet_heapSet_ne w k x (teardown ck) hx]; exact h)

theorem disposeFold_none (n : Nat) (l : List String) :
    ∀ (w : World) (x : String),
      heapGet w x = none →
      heapGet (l.foldl (fun acc y => disposeFuel n acc y) w) x = none := by
  induction l with
  | nil => intro w x h; exact h
  | cons y ys ih =>
    intro w x h
    exact ih _ x (disposeFuel_none n w y x h)

theorem disposeFuel_collector_sublist (n : Nat) :
    ∀ (w : World) (k : String),
      (disposeFuel n w k).collectorIds.Sublist w.collectorIds := by
  induction n with
  | zero => intro w k; exact List.Sublist.refl _
  | succ n ih =>
    intro w k
    have hfold : ∀ (l : List String) (w2 : World),
        (l.foldl (fun acc y => disposeFuel n acc y) w2).collectorIds.Sublist
          w2.collectorIds := by
      intro l
      induction l with
      | nil => intro w2; exact List.Sublist.refl _
      | cons y ys ihl => intro w2; exact (ihl _).trans (ih w2 y)
    rw [disposeFuel]
    cases hk : heapGet w k with
    | none => exact List.Sublist.refl _
    | some ck =>
      dsimp only
      by_cases hdk : ck.disposed = true
      · rw [if_pos hdk]
      · rw [if_neg hdk]
        exact (List.erase_sublist _ _).trans
          (hfold ck.subComponents (heapSet w k (teardown ck)))

theorem disposeFuel_countInv (n : Nat) :
    ∀ (w : World) (k : String), CountInv w → CountInv (disposeFuel n w k) := by
  induction n with
  | zero => intro w k h; exact h
  | succ n ih =>
    intro w k h
    have hfold : ∀ (l : List String) (w2 : World), CountInv w2 →
        CountInv (l.foldl (fun acc y => disposeFuel n acc y) w2) := by
      intro l
      induction l with
      | nil => intro w2 h2; exact h2
      | cons y ys ihl => intro w2 h2; exact ihl _ (ih w2 y h2)
    rw [disposeFuel]
    cases hk : heapGet w k with
    | none => exact h
    | some ck =>
      dsimp only
      by_cases hdk : ck.disposed = true
      · rw [if_pos hdk]
        exact h
      · rw [if_neg hdk]
        have hck := h (k, ck) (assocGet_mem w.heap k ck hk)
        simp only [hdk] at hck
        refine countInv_removeFromCollector _ _ (hfold _ _ ?_)
        refine countInv_heapSet w k (teardown ck) ?_ h
        simp [teardown, hck]

theorem disposeFuel_kills (n : Nat) (hn : 1 ≤ n) :
    ∀ (w : World) (k : String) (c : CompState),
      heapGet (disposeFuel n w k) k = some c → c.disposed = true := by
  cases n with
  | zero => cases hn
  | succ n =>
    intro w k c h
    rw [disposeFuel] at h
    cases hk : heapGet w k with
    | none =>
      rw [hk] at h
      simp only at h
      rw [h] at hk
      cases hk
    | some ck =>
      rw [hk] at h
      simp only at h
      by_cases hdk : ck.disposed = true
      · rw [if_pos hdk] at h
        rw [h] at hk
        have : ck = c := (Option.some.inj hk).symm
        rw [← this]
        exact hdk
      · rw [if_neg hdk] at h
        have h1 : heapGet (heapSet w k (teardown ck)) k = some (teardown ck) :=
          heapGet_heapSet_self w k (teardown ck) ck hk
        have h2 := disposeFold_frozen n ck.subComponents
          (heapSet w k (teardown ck)) k (teardown ck) h1 rfl
        rw [heapGet_removeFromCollector] at h
        rw [h2] at h
        have : teardown ck = c := Option.some.inj h
        rw [← this]
        rfl

theorem disposeFold_kills (n : Nat) (hn : 1 ≤ n) (l : List String) :
    ∀ (w : World) (x : String), x ∈ l →
      ∀ c, heapGet (l.foldl (fun acc y => disposeFuel n acc y) w) x = some c →
        c.disposed = true := by
  induction l with
  | nil => intro w x hx; cases hx
  | cons y ys ih =>
    intro w x hx c h
    rcases List.mem_cons.mp hx with he | he
    · subst he
      simp only [List.foldl_cons] at h
      cases hg : heapGet (disposeFuel n w x) x with
      | none =>
        rw [disposeFold_none n ys (disposeFuel n w x) x hg] at h
        cases h
      | some cy =>
        have hcy : cy.disposed = true := disposeFuel_kills n hn w x cy hg
        rw [disposeFold_frozen n ys (disposeFuel n w x) x cy hg hcy] at h
        have : cy = c := Option.some.inj h
        rw [← this]
        exact hcy
    · exact ih (disposeFuel n w y) x he c h

theorem disposeFold_collector_sublist (n : Nat) (l : List String) :
    ∀ (w : World),
      (l.foldl (fun acc y => disposeFuel n acc y) w).collectorIds.Sublist
        w.collectorIds := by
  induction l with
  | nil => intro w; exact List.Sublist.refl _
  | cons y ys ih =>
    intro w
    exact (ih _).trans (disposeFuel_collector_sublist n w y)

theorem disposeFold_countInv (n : Nat) (l : List String) :
    ∀ (w : World), CountInv w →
      CountInv (l.foldl (fun acc y => disposeFuel n acc y) w) := by
  induction l with
  | nil => intro w h; exact h
  | cons y ys ih =>
    intro w h
    exact ih _ (disposeFuel_countInv n w y h)

/-- C2: `dispose()` on an already-disposed component is a no-op. On a live
component it removes the element from the document, removes the component
from the collector (`getComponent` returns nothing afterwards), leaves
every owned sub-component still on the heap disposed — tolerating
sub-components shared with another parent or already disposed — and
preserves the dispose-exactly-once bookkeeping invariant, so nothing is
ever torn down twice. -/
theorem c2_dispose_contract (w : World) (cid : String) (c : CompState)
    (hg : heapGet w cid = some c)
    (hinv : CountInv w)
    (hnd : w.collectorIds.Nodup) :
    (c.disposed = true → dispose w cid = w) ∧
    (c.disposed = false →
      getComponent (dispose w cid) cid = none ∧
      heapGet (dispose w cid) cid = some (teardown c) ∧
      (teardown c).disposed = true ∧
      (teardown c).inDocument = false ∧
      (teardown c).disposeCount = 1 ∧
      (∀ k ∈ c.subComponents, ∀ ck,
        heapGet (dispose w cid) k = some ck → ck.disposed = true) ∧
      CountInv (dispose w cid)) := by
  constructor
  · intro hd
    rw [dispose, disposeFuel, hg]
    dsimp only
    rw [if_pos hd]
  · intro hd
    have hlen : 1 ≤ w.heap.length := heapGet_some_length w cid c hg
    have hcount : c.disposeCount = 0 := by
      have h1 := hinv (cid, c) (assocGet_mem w.heap cid c hg)
      simp only [hd] at h1
      simpa using h1
    have hdef : dispose w cid =
        removeFromCollector
          (c.subComponents.foldl
            (fun acc y => disposeFuel w.heap.length acc y)
            (heapSet w cid (teardown c)))
          cid := by
      rw [dispose, disposeFuel, hg]
      dsimp only
      rw [if_neg (by simp [hd])]
    have h1 : heapGet (heapSet w cid (teardown c)) cid = some (teardown c) :=
      heapGet_heapSet_self w cid (teardown c) c hg
    have h2 : heapGet
        (c.subComponents.foldl
          (fun acc y => disposeFuel w.heap.length acc y)
          (heapSet w cid (teardown c))) cid = some (teardown c) :=
      disposeFold_frozen w.heap.length c.subComponents
        (heapSet w cid (teardown c)) cid (teardown c) h1 rfl
    refine ⟨?_, ?_, rfl, rfl, ?_, ?_, ?_⟩
    · rw [hdef, getComponent]
      have hsub : (c.subComponents.foldl
          (fun acc y => disposeFuel w.heap.length acc y)
          (heapSet w cid (teardown c))).collectorIds.Sublist
            w.collectorIds :=
        disposeFold_collector_sublist w.heap.length c.subComponents
          (heapSet w cid (teardown c))
      have hnd2 := hsub.nodup hnd
      rw [if_neg ?_]
      intro hmem
      have hmem2 : cid ∈
          (c.subComponents.foldl
            (fun acc y => disposeFuel w.heap.length acc y)
            (heapSet w cid (teardown c))).collectorIds.erase cid := hmem
      rw [List.Nodup.mem_erase_iff hnd2] at hmem2
      exact hmem2.1 rfl
    · rw [hdef, heapGet_removeFromCollector]
      exact h2
    · show c.disposeCount + 1 = 1
      rw [hcount]
    · intro k hk ck hck
      rw [hdef, heapGet_removeFromCollector] at hck
      exact disposeFold_kills w.heap.length hlen c.subComponents
        (heapSet w cid (teardown c)) k hk ck hck
    · rw [hdef]
      refine countInv_removeFromCollector _ _ ?_
      refine disposeFold_countInv w.heap.length c.subComponents _ ?_
      refine countInv_heapSet w cid (teardown c) ?_ hinv
      show c.disposeCount + 1 = if true then 1 else 0
      rw [hcount]
      rfl

/-- Witness for C2 at the shared sub-component scenario of the dispose
tests: `custom` owns `child` and `another`, `another` also owns `child`,
and disposing `custom` must dispose everything exactly once. -/
theorem c2_witness :
    heapGet exWorld "custom" = some wCustom ∧
    CountInv exWorld ∧
    exWorld.collectorIds.Nodup ∧
    wCustom.disposed = false ∧
    (getComponent (dispose exWorld "custom") "custom" = none ∧
      heapGet (dispose exWorld "custom") "custom" = some (teardown wCustom) ∧
      (teardown wCustom).disposed = true ∧
      (teardown wCustom).inDocument = false ∧
      (teardown wCustom).disposeCount = 1 ∧
      (∀ k ∈ wCustom.subComponents, ∀ ck,
        heapGet (dispose exWorld "custom") k = some ck →
          ck.disposed = true) ∧
      CountInv (dispose exWorld "custom")) :=
  ⟨by decide, by decide, by decide, rfl,
    (c2_dispose_contract exWorld "custom" wCustom (by decide) (by decide)
      (by decide)).2 rfl⟩
